import Mathlib

/-!
Shallow embedding of the `ecom-utils` cart totals engine and shipping lookup.

Numbers are modelled as exact rationals (`ℚ`); quantities and stock as
integers (`ℤ`); instants (`Date`) as integer timestamps (`ℤ`).
`Math.round(x * 100) / 100` is modelled exactly as `⌊100·x + 1/2⌋ / 100`
(JavaScript `Math.round` rounds half toward +∞).
`Cart` methods that mutate state are modelled as state-passing functions
returning `(result, newState)`.
-/

namespace Ecom

inductive Currency
  | EUR | USD | GBP | CHF | CAD
  deriving DecidableEq

inductive ProductStatus
  | available | out_of_stock | preorder | discontinued
  deriving DecidableEq

inductive DiscountType
  | percentage | fixed_amount | free_shipping
  deriving DecidableEq

/-- Model of `Product` from `types.ts`. -/
structure Product where
  id : String
  name : String
  price : ℚ
  currency : Currency
  status : ProductStatus
  stock : ℤ
  category : Option String := none
  deriving DecidableEq

/-- Model of `CartItem` from `types.ts`; `addedAt` is an integer timestamp. -/
structure CartItem where
  product : Product
  quantity : ℤ
  addedAt : ℤ
  deriving DecidableEq

/-- Model of `Discount` from `types.ts`.  Optional numeric fields are `Option ℚ`;
the JavaScript truthiness test `if (x)` on such a field is modelled as
"`some` and nonzero". -/
structure Discount where
  code : String
  type : DiscountType
  value : ℚ
  minOrderAmount : Option ℚ := none
  maxDiscountAmount : Option ℚ := none
  endDate : Option ℤ := none
  isActive : Bool
  deriving DecidableEq

/-- The `Required<CartConfig>` stored on the cart. -/
structure CartConfig where
  currency : Currency
  taxRate : ℚ
  freeShippingThreshold : ℚ
  shippingCost : ℚ
  deriving DecidableEq

/-- Model of `CartTotals` from `types.ts`. -/
structure CartTotals where
  subtotal : ℚ
  discountAmount : ℚ
  shipping : ℚ
  taxAmount : ℚ
  total : ℚ
  itemCount : ℤ
  currency : Currency
  deriving DecidableEq

/-- The private state of a `Cart` instance: `items`, `discount`, `config`. -/
structure CartState where
  items : List CartItem
  discount : Option Discount
  config : CartConfig
  deriving DecidableEq

namespace Cart

/-- The `Cart` constructor: optional config entries fall back to the
defaults `taxRate = 20`, `freeShippingThreshold = 50`, `shippingCost = 4.90`. -/
def new (currency : Currency) (taxRate freeShippingThreshold shippingCost : Option ℚ) :
    CartState :=
  { items := []
    discount := none
    config :=
      { currency := currency
        taxRate := taxRate.getD 20
        freeShippingThreshold := freeShippingThreshold.getD 50
        shippingCost := shippingCost.getD (49/10) } }

/-- The rounding `Math.round(value * 100) / 100` over exact rationals. -/
def round (value : ℚ) : ℚ :=
  (Int.floor (value * 100 + 1/2) : ℚ) / 100

/-- The lookup `items.findIndex(item => item.product.id === productId)`, returning the
first matching item itself rather than its index. -/
def findItem : List CartItem → String → Option CartItem
  | [], _ => none
  | it :: rest, pid => if it.product.id = pid then some it else findItem rest pid

/-- Overwrite the quantity of the first item matching `pid`
(the in-place `this.items[index].quantity = q` on the found index). -/
def setQuantityFirst : List CartItem → String → ℤ → List CartItem
  | [], _, _ => []
  | it :: rest, pid, q =>
    if it.product.id = pid then { it with quantity := q } :: rest
    else it :: setQuantityFirst rest pid q

/-- Delete the first item matching `pid` (the `splice(index, 1)` on the
found index). -/
def removeFirst : List CartItem → String → List CartItem
  | [], _ => []
  | it :: rest, pid => if it.product.id = pid then rest else it :: removeFirst rest pid

/-- Model of `Cart.addItem(product, quantity)`; `now` is the timestamp used for
`addedAt: new Date()`. -/
def addItem (st : CartState) (product : Product) (quantity : ℤ) (now : ℤ) :
    Option CartItem × CartState :=
  if quantity ≤ 0 then (none, st)
  else if product.stock < quantity then (none, st)
  else if ¬ (product.status = .available ∨ product.status = .preorder) then (none, st)
  else
    match findItem st.items product.id with
    | some existing =>
      let newQuantity := existing.quantity + quantity
      if product.stock < newQuantity then (none, st)
      else
        (some { existing with quantity := newQuantity },
         { st with items := setQuantityFirst st.items product.id newQuantity })
    | none =>
      let newItem : CartItem := { product := product, quantity := quantity, addedAt := now }
      (some newItem, { st with items := st.items ++ [newItem] })

/-- Model of `Cart.removeItem(productId)`. -/
def removeItem (st : CartState) (productId : String) : Bool × CartState :=
  match findItem st.items productId with
  | none => (false, st)
  | some _ => (true, { st with items := removeFirst st.items productId })

/-- Model of `Cart.updateQuantity(productId, quantity)`. -/
def updateQuantity (st : CartState) (productId : String) (quantity : ℤ) :
    Bool × CartState :=
  match findItem st.items productId with
  | none => (false, st)
  | some it =>
    if quantity ≤ 0 then removeItem st productId
    else if it.product.stock < quantity then (false, st)
    else (true, { st with items := setQuantityFirst st.items productId quantity })

/-- Model of `Cart.clear()`. -/
def clear (st : CartState) : CartState :=
  { st with items := [], discount := none }

/-- Model of `Cart.removeDiscount()`. -/
def removeDiscount (st : CartState) : CartState :=
  { st with discount := none }

/-- Model of `Cart.calculateSubtotal()`. -/
def calculateSubtotal (items : List CartItem) : ℚ :=
  items.foldl (fun total it => total + it.product.price * (it.quantity : ℚ)) 0

/-- The test `discount.endDate && new Date() > discount.endDate`
(a `Date` object is always truthy, so only presence is tested). -/
def isExpired (discount : Discount) (now : ℤ) : Bool :=
  match discount.endDate with
  | some e => decide (e < now)
  | none => false

/-- The test `discount.minOrderAmount && subtotal < discount.minOrderAmount`
(`minOrderAmount` equal to 0 is falsy and skips the check). -/
def belowMinOrder (discount : Discount) (subtotal : ℚ) : Bool :=
  match discount.minOrderAmount with
  | some m => decide (m ≠ 0) && decide (subtotal < m)
  | none => false

/-- Model of `Cart.applyDiscount(discount)`; `now` models `new Date()`. -/
def applyDiscount (st : CartState) (discount : Discount) (now : ℤ) : Bool × CartState :=
  if ¬ discount.isActive then (false, st)
  else if isExpired discount now then (false, st)
  else if belowMinOrder discount (calculateSubtotal st.items) then (false, st)
  else (true, { st with discount := some discount })

/-- Model of `Cart.calculateDiscountAmount(subtotal)`.  The cap test
`if (this.discount.maxDiscountAmount)` skips a cap of 0 (falsy). -/
def calculateDiscountAmount (discount : Option Discount) (subtotal : ℚ) : ℚ :=
  match discount with
  | none => 0
  | some d =>
    let base : ℚ :=
      match d.type with
      | .percentage => subtotal * (d.value / 100)
      | .fixed_amount => min d.value subtotal
      | .free_shipping => 0
    let capped : ℚ :=
      match d.maxDiscountAmount with
      | some cap => if cap ≠ 0 then min base cap else base
      | none => base
    round capped

/-- The test `this.discount?.type === 'free_shipping'`. -/
def hasFreeShippingDiscount (discount : Option Discount) : Bool :=
  match discount with
  | some d => decide (d.type = DiscountType.free_shipping)
  | none => false

/-- Model of `Cart.calculateShipping(subtotalAfterDiscount)`. -/
def calculateShipping (config : CartConfig) (discount : Option Discount)
    (subtotalAfterDiscount : ℚ) : ℚ :=
  if hasFreeShippingDiscount discount then 0
  else if config.freeShippingThreshold ≤ subtotalAfterDiscount then 0
  else config.shippingCost

/-- Model of `Cart.calculateTax(amount)`. -/
def calculateTax (config : CartConfig) (amount : ℚ) : ℚ :=
  round (amount * (config.taxRate / 100))

/-- Model of `Cart.getItemCount()`. -/
def getItemCount (st : CartState) : ℤ :=
  st.items.foldl (fun count it => count + it.quantity) 0

/-- Model of `Cart.getTotals()`: the six-step pipeline. -/
def getTotals (st : CartState) : CartTotals :=
  let subtotal := calculateSubtotal st.items
  let discountAmount := calculateDiscountAmount st.discount subtotal
  let subtotalAfterDiscount := subtotal - discountAmount
  let shipping := calculateShipping st.config st.discount subtotalAfterDiscount
  let taxableAmount := subtotalAfterDiscount + shipping
  let taxAmount := calculateTax st.config taxableAmount
  let total := round (taxableAmount + taxAmount)
  { subtotal := round subtotal
    discountAmount := discountAmount
    shipping := shipping
    taxAmount := taxAmount
    total := total
    itemCount := getItemCount st
    currency := st.config.currency }

end Cart

end Ecom

namespace Ecom

namespace Cart

/-! Basic facts about the cent rounding `round`. -/

theorem round_mono {x y : ℚ} (h : x ≤ y) : round x ≤ round y := by
  unfold round
  have hf : Int.floor (x * 100 + 1/2) ≤ Int.floor (y * 100 + 1/2) :=
    Int.floor_mono (by linarith)
  have hc : ((Int.floor (x * 100 + 1/2) : ℤ) : ℚ) ≤ ((Int.floor (y * 100 + 1/2) : ℤ) : ℚ) :=
    Int.cast_le.mpr hf
  linarith

theorem round_le_half_cent (x : ℚ) : round x ≤ x + 1/200 := by
  unfold round
  have hf : ((Int.floor (x * 100 + 1/2) : ℤ) : ℚ) ≤ x * 100 + 1/2 :=
    Int.floor_le (x * 100 + 1/2)
  linarith

theorem round_cents (k : ℤ) : round ((k : ℚ) / 100) = (k : ℚ) / 100 := by
  unfold round
  have h1 : (k : ℚ) / 100 * 100 + 1/2 = (k : ℚ) + 1/2 := by ring
  rw [h1, Int.floor_int_add]
  have h2 : Int.floor ((1 : ℚ)/2) = 0 := by norm_num [Int.floor_eq_zero_iff]
  rw [h2]
  push_cast
  ring

theorem round_nonneg {x : ℚ} (h : 0 ≤ x) : 0 ≤ round x := by
  unfold round
  have hf : (0 : ℤ) ≤ Int.floor (x * 100 + 1/2) :=
    Int.le_floor.mpr (by push_cast; linarith)
  have hc : (0 : ℚ) ≤ ((Int.floor (x * 100 + 1/2) : ℤ) : ℚ) := Int.cast_nonneg.mpr hf
  positivity

theorem round_ge_cent {x : ℚ} (h : 1/200 ≤ x) : 1/100 ≤ round x := by
  unfold round
  have hf : (1 : ℤ) ≤ Int.floor (x * 100 + 1/2) :=
    Int.le_floor.mpr (by push_cast; linarith)
  have hc : (1 : ℚ) ≤ ((Int.floor (x * 100 + 1/2) : ℤ) : ℚ) := by exact_mod_cast hf
  linarith

end Cart

/-! Concrete data used for the closed statements below. -/

/-- The t-shirt product of the spec scenarios: unit price 29.90, in stock. -/
def tshirt : Product :=
  { id := "1", name := "T-shirt Premium", price := 29.90, currency := .EUR,
    status := .available, stock := 100 }

/-- Default-configured cart (tax 20, threshold 50, shipping 4.90) holding
two t-shirts and no discount. -/
def scenarioACart : CartState :=
  { items := [{ product := tshirt, quantity := 2, addedAt := 0 }]
    discount := none
    config := { currency := .EUR, taxRate := 20, freeShippingThreshold := 50,
                shippingCost := 4.90 } }

/-- C1: for a cart configured with tax rate 20, free-shipping threshold 50 and
flat shipping cost 4.90, holding exactly one line item of unit price 29.90 and
quantity 2 and no active discount, `getTotals` returns subtotal 59.80,
discountAmount 0, shipping 0, taxAmount 11.96, total 71.76 and itemCount 2. -/
theorem claim_C1 :
    Cart.getTotals scenarioACart =
      { subtotal := 59.80, discountAmount := 0, shipping := 0, taxAmount := 11.96,
        total := 71.76, itemCount := 2, currency := .EUR } := by
  norm_num [Cart.getTotals, Cart.calculateSubtotal, Cart.calculateDiscountAmount,
    Cart.calculateShipping, Cart.calculateTax, Cart.getItemCount, Cart.round,
    Cart.hasFreeShippingDiscount, scenarioACart, tshirt]

/-- C2: in `getTotals`, the free-shipping threshold is always evaluated against
the subtotal minus the (rounded) discount amount, and the tax amount is always
the rounded tax on that post-discount subtotal plus the shipping charge — never
on the pre-discount subtotal. -/
theorem claim_C2 (st : CartState) :
    (Cart.getTotals st).shipping =
      (if Cart.hasFreeShippingDiscount st.discount then 0
       else if st.config.freeShippingThreshold ≤
           Cart.calculateSubtotal st.items -
             Cart.calculateDiscountAmount st.discount (Cart.calculateSubtotal st.items)
         then 0
       else st.config.shippingCost) ∧
    (Cart.getTotals st).taxAmount =
      Cart.round ((Cart.calculateSubtotal st.items -
          Cart.calculateDiscountAmount st.discount (Cart.calculateSubtotal st.items) +
          (Cart.getTotals st).shipping) * (st.config.taxRate / 100)) := by
  constructor
  · rfl
  · rfl

end Ecom

namespace Ecom

/-- Helper: with a non-negative subtotal and a percentage value of at most 100,
the discount amount (min, cap and rounding included) is at most the rounded
subtotal. -/
theorem discountAmount_le_round {d : Discount} {s : ℚ} (hs : 0 ≤ s)
    (hval : d.type = DiscountType.percentage → d.value ≤ 100) :
    Cart.calculateDiscountAmount (some d) s ≤ Cart.round s := by
  obtain ⟨code, ty, v, mo, mda, ed, act⟩ := d
  simp only [Cart.calculateDiscountAmount]
  apply Cart.round_mono
  cases ty with
  | percentage =>
      have hv : v ≤ 100 := hval rfl
      have hb : s * (v / 100) ≤ s := mul_le_of_le_one_right hs (by linarith)
      cases mda with
      | none => exact hb
      | some cap =>
          dsimp only
          split_ifs with h
          · exact le_trans (min_le_left _ _) hb
          · exact hb
  | fixed_amount =>
      have hb : min v s ≤ s := min_le_right _ _
      cases mda with
      | none => exact hb
      | some cap =>
          dsimp only
          split_ifs with h
          · exact le_trans (min_le_left _ _) hb
          · exact hb
  | free_shipping =>
      cases mda with
      | none => exact hs
      | some cap =>
          dsimp only
          split_ifs with h
          · exact le_trans (min_le_left _ _) hs
          · exact hs

/-- Cart with one line of unit price 0.005 and an active fixed-amount
discount of 1: the rounded discount (0.01) exceeds the subtotal (0.005). -/
def halfCentCart : CartState :=
  { items := [{ product := { id := "hc", name := "Half cent", price := 0.005,
                             currency := .EUR, status := .available, stock := 10 },
                quantity := 1, addedAt := 0 }]
    discount := some { code := "FIX1", type := .fixed_amount, value := 1, isActive := true }
    config := { currency := .EUR, taxRate := 20, freeShippingThreshold := 50,
                shippingCost := 4.90 } }

/-- C3 fails as stated: on a cart with subtotal 0.005 and an active
fixed-amount discount of value 1, the rounded discount amount is 0.01, which
exceeds the subtotal, so the subtotal-after-discount used by later steps is
negative. -/
theorem claim_C3_counterexample :
    Cart.calculateSubtotal halfCentCart.items = 0.005 ∧
    (Cart.getTotals halfCentCart).discountAmount = 0.01 ∧
    Cart.calculateSubtotal halfCentCart.items <
      (Cart.getTotals halfCentCart).discountAmount ∧
    Cart.calculateSubtotal halfCentCart.items -
      (Cart.getTotals halfCentCart).discountAmount < 0 := by
  refine ⟨by norm_num [Cart.calculateSubtotal, halfCentCart], ?_, ?_, ?_⟩ <;>
    norm_num [Cart.getTotals, Cart.calculateSubtotal, Cart.calculateDiscountAmount,
      Cart.round, halfCentCart]

/-- C3 (amended): for every cart state whose subtotal is non-negative and whose
active discount has a percentage value of at most 100 when its kind is
percentage, the discount amount of step 2 exceeds the subtotal by at most half
a cent, and never exceeds it when the subtotal is a whole number of cents (in
particular whenever all prices have at most two decimal places). -/
theorem claim_C3_amended (st : CartState) (d : Discount)
    (hd : st.discount = some d)
    (hsub : 0 ≤ Cart.calculateSubtotal st.items)
    (hval : d.type = DiscountType.percentage → d.value ≤ 100) :
    (Cart.getTotals st).discountAmount ≤ Cart.calculateSubtotal st.items + 1/200 ∧
    (∀ k : ℤ, Cart.calculateSubtotal st.items = (k : ℚ) / 100 →
      (Cart.getTotals st).discountAmount ≤ Cart.calculateSubtotal st.items) := by
  have hEq : (Cart.getTotals st).discountAmount =
      Cart.calculateDiscountAmount st.discount (Cart.calculateSubtotal st.items) := rfl
  rw [hEq, hd]
  have hle := discountAmount_le_round (d := d) hsub hval
  constructor
  · exact le_trans hle (Cart.round_le_half_cent _)
  · intro k hk
    have : Cart.round (Cart.calculateSubtotal st.items) = Cart.calculateSubtotal st.items := by
      rw [hk]; exact Cart.round_cents k
    exact le_trans hle (le_of_eq this)

/-- Cart with subtotal 10 and an active 10% discount, used to instantiate the
amended C3. -/
def tenPercentCart : CartState :=
  { items := [{ product := { id := "p", name := "P", price := 10, currency := .EUR,
                             status := .available, stock := 10 },
                quantity := 1, addedAt := 0 }]
    discount := some { code := "TEN", type := .percentage, value := 10, isActive := true }
    config := { currency := .EUR, taxRate := 20, freeShippingThreshold := 50,
                shippingCost := 4.90 } }

/-- C3 witness: the amended claim applied to a concrete 10%-discount cart. -/
theorem claim_C3_witness :
    (Cart.getTotals tenPercentCart).discountAmount ≤
      Cart.calculateSubtotal tenPercentCart.items :=
  (claim_C3_amended tenPercentCart
      { code := "TEN", type := .percentage, value := 10, isActive := true }
      rfl
      (by norm_num [Cart.calculateSubtotal, tenPercentCart])
      (fun _ => by norm_num)).2 1000
    (by norm_num [Cart.calculateSubtotal, tenPercentCart])

/-- Discount with a maximum-discount cap of exactly 0. -/
def capZeroDiscount : Discount :=
  { code := "CAP0", type := .percentage, value := 10, maxDiscountAmount := some 0,
    isActive := true }

/-- Cart with subtotal 100 and the cap-0 percentage discount active. -/
def capZeroCart : CartState :=
  { items := [{ product := { id := "1", name := "P", price := 50, currency := .EUR,
                             status := .available, stock := 10 },
                quantity := 2, addedAt := 0 }]
    discount := some capZeroDiscount
    config := { currency := .EUR, taxRate := 20, freeShippingThreshold := 50,
                shippingCost := 4.90 } }

/-- C4 fails as stated for a cap of 0: the falsy test
`if (this.discount.maxDiscountAmount)` skips a cap equal to 0, so a 10%
discount on a subtotal of 100 yields 10, not at most 0. -/
theorem claim_C4_counterexample :
    capZeroDiscount.maxDiscountAmount = some 0 ∧
    (Cart.getTotals capZeroCart).discountAmount = 10 ∧
    ¬ (Cart.getTotals capZeroCart).discountAmount ≤ 0 := by
  refine ⟨rfl, ?_, ?_⟩ <;>
    norm_num [Cart.getTotals, Cart.calculateSubtotal, Cart.calculateDiscountAmount,
      Cart.round, capZeroCart, capZeroDiscount]

/-- C4 (amended): for every active discount whose maximum-discount cap is set
and nonzero, the discount amount of step 2 is at most the cap rounded to two
decimals — and hence at most the cap itself whenever the cap is a whole number
of cents.  A cap of exactly 0 is treated as unset by the code and not applied. -/
theorem claim_C4_amended (st : CartState) (d : Discount) (cap : ℚ)
    (hd : st.discount = some d)
    (hcap : d.maxDiscountAmount = some cap)
    (h0 : cap ≠ 0) :
    (Cart.getTotals st).discountAmount ≤ Cart.round cap ∧
    (∀ k : ℤ, cap = (k : ℚ) / 100 → (Cart.getTotals st).discountAmount ≤ cap) := by
  have hEq : (Cart.getTotals st).discountAmount =
      Cart.calculateDiscountAmount st.discount (Cart.calculateSubtotal st.items) := rfl
  rw [hEq, hd]
  obtain ⟨code, ty, v, mo, mda, ed, act⟩ := d
  simp only at hcap
  subst hcap
  have key : Cart.calculateDiscountAmount
      (some { code := code, type := ty, value := v, minOrderAmount := mo,
              maxDiscountAmount := some cap, endDate := ed, isActive := act })
      (Cart.calculateSubtotal st.items) ≤ Cart.round cap := by
    simp only [Cart.calculateDiscountAmount]
    rw [if_pos h0]
    exact Cart.round_mono (min_le_right _ _)
  refine ⟨key, fun k hk => ?_⟩
  have : Cart.round cap = cap := by rw [hk]; exact Cart.round_cents k
  exact le_trans key (le_of_eq this)

/-- Discount with a nonzero cap of 5, and a cart with subtotal 100, used to
instantiate the amended C4. -/
def capFiveDiscount : Discount :=
  { code := "CAP5", type := .percentage, value := 50, maxDiscountAmount := some 5,
    isActive := true }

def capFiveCart : CartState :=
  { items := [{ product := { id := "1", name := "P", price := 50, currency := .EUR,
                             status := .available, stock := 10 },
                quantity := 2, addedAt := 0 }]
    discount := some capFiveDiscount
    config := { currency := .EUR, taxRate := 20, freeShippingThreshold := 50,
                shippingCost := 4.90 } }

/-- C4 witness: the amended claim applied to a 50% discount capped at 5 on a
subtotal of 100. -/
theorem claim_C4_witness :
    (Cart.getTotals capFiveCart).discountAmount ≤ 5 :=
  (claim_C4_amended capFiveCart capFiveDiscount 5 rfl rfl (by norm_num)).2 500
    (by norm_num)

end Ecom

namespace Ecom

/-- C5: whenever `addItem` reports failure (`null`) or `updateQuantity`
reports failure (`false`), the whole cart state — items, discount slot and
configuration — is exactly as it was before the call. -/
theorem claim_C5 :
    (∀ (st : CartState) (p : Product) (q now : ℤ),
      (Cart.addItem st p q now).1 = none → (Cart.addItem st p q now).2 = st) ∧
    (∀ (st : CartState) (pid : String) (q : ℤ),
      (Cart.updateQuantity st pid q).1 = false → (Cart.updateQuantity st pid q).2 = st) := by
  constructor
  · intro st p q now h
    unfold Cart.addItem at h ⊢
    split_ifs at h ⊢ with h1 h2 h3
    all_goals try rfl
    rcases hf : Cart.findItem st.items p.id with _ | it
    · rw [hf] at h
      simp at h
    · rw [hf] at h
      dsimp only at h ⊢
      split_ifs at h ⊢ with h4
      rfl
  · intro st pid q h
    unfold Cart.updateQuantity at h ⊢
    rcases hf : Cart.findItem st.items pid with _ | it
    · rfl
    · rw [hf] at h
      dsimp only at h ⊢
      split_ifs at h ⊢ with h1 h2
      · unfold Cart.removeItem at h
        rw [hf] at h
        simp at h
      · rfl

/-- C5 witness: adding with quantity 0 to the scenario-A cart fails and
leaves the state untouched. -/
theorem claim_C5_witness :
    (Cart.addItem scenarioACart tshirt 0 0).2 = scenarioACart ∧
    (Cart.updateQuantity scenarioACart "999" 5).2 = scenarioACart :=
  ⟨claim_C5.1 scenarioACart tshirt 0 0 rfl,
   claim_C5.2 scenarioACart "999" 5 rfl⟩

/-- The test `isExpired` is true exactly when an expiry instant is set and lies in the
past relative to `now`. -/
theorem isExpired_eq_true (d : Discount) (now : ℤ) :
    Cart.isExpired d now = true ↔ ∃ e, d.endDate = some e ∧ e < now := by
  cases h : d.endDate <;> simp [Cart.isExpired, h]

/-- The test `belowMinOrder` is true exactly when a nonzero minimum order amount is set
and exceeds the subtotal. -/
theorem belowMinOrder_eq_true (d : Discount) (s : ℚ) :
    Cart.belowMinOrder d s = true ↔
      ∃ m, d.minOrderAmount = some m ∧ m ≠ 0 ∧ s < m := by
  cases h : d.minOrderAmount <;> simp [Cart.belowMinOrder, h]

/-- C6: for a cart with non-negative subtotal, `applyDiscount` returns false
and leaves the state unchanged exactly when the discount is inactive, or has an
expiry instant in the past relative to now, or has a minimum order amount set
that exceeds the current pre-discount subtotal; otherwise it replaces any
previously active discount and returns true. -/
theorem claim_C6 (st : CartState) (d : Discount) (now : ℤ)
    (hsub : 0 ≤ Cart.calculateSubtotal st.items) :
    ((Cart.applyDiscount st d now).1 = false ∧ (Cart.applyDiscount st d now).2 = st ↔
      d.isActive = false ∨ (∃ e, d.endDate = some e ∧ e < now) ∨
        (∃ m, d.minOrderAmount = some m ∧ Cart.calculateSubtotal st.items < m)) ∧
    ((Cart.applyDiscount st d now).1 = true →
      (Cart.applyDiscount st d now).2 = { st with discount := some d }) := by
  unfold Cart.applyDiscount
  by_cases hA : d.isActive = true
  · rw [if_neg (by simp [hA])]
    by_cases hE : Cart.isExpired d now = true
    · rw [if_pos hE]
      exact ⟨⟨fun _ => Or.inr (Or.inl ((isExpired_eq_true d now).mp hE)),
        fun _ => ⟨rfl, rfl⟩⟩, by simp⟩
    · rw [if_neg hE]
      by_cases hM : Cart.belowMinOrder d (Cart.calculateSubtotal st.items) = true
      · rw [if_pos hM]
        refine ⟨⟨fun _ => ?_, fun _ => ⟨rfl, rfl⟩⟩, by simp⟩
        obtain ⟨m, hm, -, hlt⟩ :=
          (belowMinOrder_eq_true d (Cart.calculateSubtotal st.items)).mp hM
        exact Or.inr (Or.inr ⟨m, hm, hlt⟩)
      · rw [if_neg hM]
        refine ⟨⟨?_, ?_⟩, fun _ => rfl⟩
        · rintro ⟨hfalse, -⟩
          simp at hfalse
        · rintro (hAf | ⟨e, he, hlt⟩ | ⟨m, hm, hlt⟩)
          · simp [hAf] at hA
          · exact absurd ((isExpired_eq_true d now).mpr ⟨e, he, hlt⟩) hE
          · have hm0 : m ≠ 0 := fun h0 => absurd (h0 ▸ hlt) (not_lt.mpr hsub)
            exact absurd
              ((belowMinOrder_eq_true d (Cart.calculateSubtotal st.items)).mpr
                ⟨m, hm, hm0, hlt⟩) hM
  · rw [if_pos hA]
    have hAf : d.isActive = false := by simpa using hA
    exact ⟨⟨fun _ => Or.inl hAf, fun _ => ⟨rfl, rfl⟩⟩, by simp⟩

/-- Discount requiring a 1000 minimum order amount. -/
def bigMinDiscount : Discount :=
  { code := "BIG", type := .percentage, value := 10, minOrderAmount := some 1000,
    isActive := true }

/-- A stored line of one t-shirt. -/
def oneShirtItem : CartItem := { product := tshirt, quantity := 1, addedAt := 0 }

/-- Cart holding one t-shirt (subtotal 29.90) and no discount. -/
def oneShirtCart : CartState :=
  { items := [oneShirtItem]
    discount := none
    config := { currency := .EUR, taxRate := 20, freeShippingThreshold := 50,
                shippingCost := 4.90 } }

/-- C6 witness: applying a discount whose minimum order amount is 1000 to a
29.90 cart is rejected and does not mutate the state. -/
theorem claim_C6_witness :
    (Cart.applyDiscount oneShirtCart bigMinDiscount 0).1 = false ∧
    (Cart.applyDiscount oneShirtCart bigMinDiscount 0).2 = oneShirtCart :=
  (claim_C6 oneShirtCart bigMinDiscount 0
      (by norm_num [Cart.calculateSubtotal, oneShirtCart, oneShirtItem, tshirt])).1.mpr
    (Or.inr (Or.inr ⟨1000, rfl,
      by norm_num [Cart.calculateSubtotal, oneShirtCart, oneShirtItem, tshirt]⟩))

end Ecom

namespace Ecom

/-- Number of cart lines carrying the product id `pid`. -/
def idCount (items : List CartItem) (pid : String) : ℕ :=
  (items.map (fun it => it.product.id)).count pid

theorem setQuantityFirst_map_id (l : List CartItem) (pid : String) (q : ℤ) :
    (Cart.setQuantityFirst l pid q).map (fun it => it.product.id) =
      l.map (fun it => it.product.id) := by
  induction l with
  | nil => rfl
  | cons it rest ih =>
      unfold Cart.setQuantityFirst
      split_ifs with h
      · simp
      · simpa using ih

theorem setQuantityFirst_length (l : List CartItem) (pid : String) (q : ℤ) :
    (Cart.setQuantityFirst l pid q).length = l.length := by
  have h := congrArg List.length (setQuantityFirst_map_id l pid q)
  simpa using h

theorem idCount_setQuantityFirst (l : List CartItem) (pid pid' : String) (q : ℤ) :
    idCount (Cart.setQuantityFirst l pid q) pid' = idCount l pid' := by
  unfold idCount
  rw [setQuantityFirst_map_id]

/-- The discontinued snapshot of the t-shirt: same id, same stock. -/
def discontinuedTshirt : Product := { tshirt with status := .discontinued }

/-- C7 fails as stated: the cart already holds a t-shirt line with quantity 1,
the combined quantity 1 + 1 is within the stock of the product passed to
`addItem`, yet the call returns null (and mutates nothing) because the passed
snapshot's status is neither available nor preorder.  The claim admits only
the two stock-determined outcomes. -/
theorem claim_C7_counterexample :
    Cart.findItem oneShirtCart.items discontinuedTshirt.id = some oneShirtItem ∧
    oneShirtItem.quantity + 1 ≤ discontinuedTshirt.stock ∧
    (Cart.addItem oneShirtCart discontinuedTshirt 1 0).1 = none ∧
    (Cart.addItem oneShirtCart discontinuedTshirt 1 0).2 = oneShirtCart := by
  refine ⟨rfl, by norm_num [oneShirtItem, discontinuedTshirt, tshirt], rfl, rfl⟩

/-- After overwriting the first line matching `pid`, the first line found for
`pid` is that same line with the new quantity: the stored quantity really is
raised. -/
theorem findItem_setQuantityFirst {l : List CartItem} {pid : String} {q : ℤ}
    {ex : CartItem} (hfind : Cart.findItem l pid = some ex) :
    Cart.findItem (Cart.setQuantityFirst l pid q) pid =
      some { ex with quantity := q } := by
  induction l with
  | nil => simp [Cart.findItem] at hfind
  | cons h t ih =>
      unfold Cart.findItem at hfind
      split_ifs at hfind with hh
      · obtain rfl : h = ex := Option.some.inj hfind
        simp [Cart.setQuantityFirst, Cart.findItem, hh]
      · simp [Cart.setQuantityFirst, Cart.findItem, hh, ih hfind]

/-- Lines whose product id differs from `pid` survive `setQuantityFirst`
unchanged. -/
theorem mem_setQuantityFirst_of_ne {l : List CartItem} {pid : String} {q : ℤ}
    {x : CartItem} (hx : x ∈ l) (hne : x.product.id ≠ pid) :
    x ∈ Cart.setQuantityFirst l pid q := by
  induction l with
  | nil => simp at hx
  | cons h t ih =>
      unfold Cart.setQuantityFirst
      split_ifs with hh
      · rcases List.mem_cons.mp hx with rfl | hx2
        · exact absurd hh hne
        · exact List.mem_cons_of_mem _ hx2
      · rcases List.mem_cons.mp hx with rfl | hx2
        · exact List.mem_cons_self _ _
        · exact List.mem_cons_of_mem _ (ih hx2)

/-- The raised line is a member of the overwritten list. -/
theorem raised_mem_setQuantityFirst {l : List CartItem} {pid : String} {q : ℤ}
    {ex : CartItem} (hfind : Cart.findItem l pid = some ex) :
    ({ ex with quantity := q } : CartItem) ∈ Cart.setQuantityFirst l pid q := by
  induction l with
  | nil => simp [Cart.findItem] at hfind
  | cons h t ih =>
      unfold Cart.findItem at hfind
      unfold Cart.setQuantityFirst
      split_ifs at hfind ⊢ with hh
      · obtain rfl : h = ex := Option.some.inj hfind
        exact List.mem_cons_self _ _
      · exact List.mem_cons_of_mem _ (ih hfind)

/-- With at most one line per product id, every member of the overwritten list
is either the raised line or an untouched line of a different product. -/
theorem mem_setQuantityFirst_nodup {l : List CartItem} {pid : String} {q : ℤ}
    {ex x : CartItem}
    (hnodup : (l.map (fun it => it.product.id)).Nodup)
    (hfind : Cart.findItem l pid = some ex)
    (hx : x ∈ Cart.setQuantityFirst l pid q) :
    x = { ex with quantity := q } ∨ (x ∈ l ∧ x.product.id ≠ pid) := by
  induction l with
  | nil => simp [Cart.findItem] at hfind
  | cons h t ih =>
      unfold Cart.findItem at hfind
      unfold Cart.setQuantityFirst at hx
      split_ifs at hfind hx with hh
      · have heq : h = ex := Option.some.inj hfind
        rcases List.mem_cons.mp hx with hx1 | hx2
        · left; rw [hx1, heq]
        · right
          refine ⟨List.mem_cons_of_mem _ hx2, ?_⟩
          have hnotin : h.product.id ∉ t.map (fun it => it.product.id) := by
            simp only [List.map_cons] at hnodup
            exact (List.nodup_cons.mp hnodup).1
          intro hcontra
          have hmem : x.product.id ∈ t.map (fun it => it.product.id) :=
            List.mem_map_of_mem _ hx2
          rw [hcontra, ← hh] at hmem
          exact hnotin hmem
      · rcases List.mem_cons.mp hx with rfl | hx2
        · right; exact ⟨List.mem_cons_self _ _, hh⟩
        · have hnd : (t.map (fun it => it.product.id)).Nodup := by
            simp only [List.map_cons] at hnodup
            exact (List.nodup_cons.mp hnodup).2
          rcases ih hnd hfind hx2 with h1 | ⟨h1, h2⟩
          · left; exact h1
          · right; exact ⟨List.mem_cons_of_mem _ h1, h2⟩

/-- C7 (amended): if a cart with at most one line per product id already holds
a line for product id p with quantity q, then `addItem` called with a product
of id p whose status is available or preorder and a quantity n ≥ 1 either
raises that stored line's quantity to q + n (when q + n ≤ stock) — the line
found for p in the post-state is the old line with quantity q + n, the
post-state's lines are exactly the raised line plus the untouched lines of
other products, and the number of lines for p and the total number of lines
are unchanged — or returns null without mutating (when q + n > stock). -/
theorem claim_C7_amended (st : CartState) (p : Product) (n now : ℤ) (ex : CartItem)
    (hnodup : (st.items.map (fun it => it.product.id)).Nodup)
    (hfind : Cart.findItem st.items p.id = some ex)
    (hq : 1 ≤ ex.quantity) (hn : 1 ≤ n)
    (hstatus : p.status = ProductStatus.available ∨ p.status = ProductStatus.preorder) :
    (ex.quantity + n ≤ p.stock →
      (Cart.addItem st p n now).1 = some { ex with quantity := ex.quantity + n } ∧
      Cart.findItem (Cart.addItem st p n now).2.items p.id =
        some { ex with quantity := ex.quantity + n } ∧
      (∀ x, x ∈ (Cart.addItem st p n now).2.items ↔
        (x = { ex with quantity := ex.quantity + n } ∨
          (x ∈ st.items ∧ x.product.id ≠ p.id))) ∧
      idCount (Cart.addItem st p n now).2.items p.id = idCount st.items p.id ∧
      (Cart.addItem st p n now).2.items.length = st.items.length) ∧
    (p.stock < ex.quantity + n →
      (Cart.addItem st p n now).1 = none ∧ (Cart.addItem st p n now).2 = st) := by
  constructor
  · intro hle
    have hn0 : ¬ n ≤ 0 := by omega
    have hns : ¬ p.stock < n := by omega
    unfold Cart.addItem
    rw [if_neg hn0, if_neg hns, if_neg (not_not_intro hstatus), hfind]
    dsimp only
    rw [if_neg (not_lt.mpr hle)]
    refine ⟨rfl, findItem_setQuantityFirst hfind, ?_,
      idCount_setQuantityFirst st.items p.id p.id (ex.quantity + n),
      setQuantityFirst_length st.items p.id (ex.quantity + n)⟩
    intro x
    constructor
    · exact mem_setQuantityFirst_nodup hnodup hfind
    · rintro (rfl | ⟨hx, hne2⟩)
      · exact raised_mem_setQuantityFirst hfind
      · exact mem_setQuantityFirst_of_ne hx hne2
  · intro hgt
    have hn0 : ¬ n ≤ 0 := by omega
    by_cases hns : p.stock < n
    · unfold Cart.addItem
      rw [if_neg hn0, if_pos hns]
      exact ⟨rfl, rfl⟩
    · unfold Cart.addItem
      rw [if_neg hn0, if_neg hns, if_neg (not_not_intro hstatus), hfind]
      dsimp only
      rw [if_pos hgt]
      exact ⟨rfl, rfl⟩

/-- C7 witness: merging 2 more t-shirts into the one-shirt cart raises the
stored line's quantity to 3, keeps a single line for that product and the same
number of lines. -/
theorem claim_C7_witness :
    Cart.findItem (Cart.addItem oneShirtCart tshirt 2 0).2.items tshirt.id =
      some { oneShirtItem with quantity := oneShirtItem.quantity + 2 } ∧
    idCount (Cart.addItem oneShirtCart tshirt 2 0).2.items tshirt.id =
      idCount oneShirtCart.items tshirt.id ∧
    (Cart.addItem oneShirtCart tshirt 2 0).2.items.length =
      oneShirtCart.items.length :=
  have h := (claim_C7_amended oneShirtCart tshirt 2 0 oneShirtItem
      (by simp [oneShirtCart, oneShirtItem]) rfl
      (by norm_num [oneShirtItem]) (by norm_num) (Or.inl rfl)).1
    (by norm_num [oneShirtItem, tshirt])
  ⟨h.2.1, h.2.2.2.1, h.2.2.2.2⟩

end Ecom

namespace Ecom

theorem findItem_eq_none {l : List CartItem} {pid : String}
    (h : Cart.findItem l pid = none) : ∀ it ∈ l, it.product.id ≠ pid := by
  induction l with
  | nil => intro it hit; simp at hit
  | cons x rest ih =>
      unfold Cart.findItem at h
      split_ifs at h with hx
      intro it hit
      rcases List.mem_cons.mp hit with h1 | h1
      · rw [h1]; exact hx
      · exact ih h it h1

theorem findItem_some_mem {l : List CartItem} {pid : String} {it : CartItem}
    (h : Cart.findItem l pid = some it) : it ∈ l ∧ it.product.id = pid := by
  induction l with
  | nil => simp [Cart.findItem] at h
  | cons x rest ih =>
      unfold Cart.findItem at h
      split_ifs at h with hx
      · obtain rfl : x = it := Option.some.inj h
        exact ⟨List.mem_cons_self _ _, hx⟩
      · obtain ⟨hm, hid⟩ := ih h
        exact ⟨List.mem_cons_of_mem _ hm, hid⟩

theorem mem_setQuantityFirst {l : List CartItem} {pid : String} {q : ℤ} {x : CartItem}
    (hx : x ∈ Cart.setQuantityFirst l pid q) : x.quantity = q ∨ x ∈ l := by
  induction l with
  | nil => simp [Cart.setQuantityFirst] at hx
  | cons it rest ih =>
      unfold Cart.setQuantityFirst at hx
      split_ifs at hx with h
      · rcases List.mem_cons.mp hx with h1 | h1
        · left; rw [h1]
        · right; exact List.mem_cons_of_mem _ h1
      · rcases List.mem_cons.mp hx with h1 | h1
        · right; rw [h1]; exact List.mem_cons_self _ _
        · rcases ih h1 with h2 | h2
          · left; exact h2
          · right; exact List.mem_cons_of_mem _ h2

theorem removeFirst_sublist (l : List CartItem) (pid : String) :
    List.Sublist (Cart.removeFirst l pid) l := by
  induction l with
  | nil => simp [Cart.removeFirst]
  | cons it rest ih =>
      unfold Cart.removeFirst
      split_ifs with h
      · exact List.Sublist.cons it (List.Sublist.refl rest)
      · exact List.Sublist.cons₂ it ih

/-- The two state invariants of the LineItem collection: at most one line per
product id, and every persisted quantity is at least 1. -/
def CartInv (st : CartState) : Prop :=
  (st.items.map (fun it => it.product.id)).Nodup ∧ ∀ it ∈ st.items, 1 ≤ it.quantity

/-- States reachable from a freshly constructed cart through the public
operations. -/
inductive Reachable : CartState → Prop
  | init (currency : Currency) (t f c : Option ℚ) :
      Reachable (Cart.new currency t f c)
  | add (st : CartState) (p : Product) (q now : ℤ) :
      Reachable st → Reachable (Cart.addItem st p q now).2
  | update (st : CartState) (pid : String) (q : ℤ) :
      Reachable st → Reachable (Cart.updateQuantity st pid q).2
  | remove (st : CartState) (pid : String) :
      Reachable st → Reachable (Cart.removeItem st pid).2
  | clearCart (st : CartState) :
      Reachable st → Reachable (Cart.clear st)
  | applyDisc (st : CartState) (d : Discount) (now : ℤ) :
      Reachable st → Reachable (Cart.applyDiscount st d now).2
  | removeDisc (st : CartState) :
      Reachable st → Reachable (Cart.removeDiscount st)

theorem inv_new (currency : Currency) (t f c : Option ℚ) :
    CartInv (Cart.new currency t f c) := by
  constructor <;> simp [Cart.new]

theorem inv_addItem (st : CartState) (p : Product) (q now : ℤ) (h : CartInv st) :
    CartInv (Cart.addItem st p q now).2 := by
  unfold Cart.addItem
  split_ifs with h1 h2 h3
  all_goals try exact h
  rcases hf : Cart.findItem st.items p.id with _ | ex
  · dsimp only
    constructor
    · have hnone := findItem_eq_none hf
      rw [List.map_append]
      refine List.Nodup.append h.1 (by simp) ?_
      intro a ha hb
      simp only [List.map_cons, List.map_nil, List.mem_singleton] at hb
      obtain ⟨it2, hit2, hid⟩ := List.mem_map.mp ha
      exact hnone it2 hit2 (by rw [hid, hb])
    · intro it hit
      rcases List.mem_append.mp hit with hmem | hmem
      · exact h.2 it hmem
      · simp only [List.mem_singleton] at hmem
        rw [hmem]
        dsimp only
        omega
  · dsimp only
    split_ifs with h4
    · exact h
    · constructor
      · rw [setQuantityFirst_map_id]; exact h.1
      · intro it hit
        rcases mem_setQuantityFirst hit with hq | hmem
        · have hex : 1 ≤ ex.quantity := h.2 ex (findItem_some_mem hf).1
          omega
        · exact h.2 it hmem

theorem inv_removeItem (st : CartState) (pid : String) (h : CartInv st) :
    CartInv (Cart.removeItem st pid).2 := by
  unfold Cart.removeItem
  rcases hf : Cart.findItem st.items pid with _ | it
  · exact h
  · dsimp only
    constructor
    · exact List.Nodup.sublist
        (List.Sublist.map _ (removeFirst_sublist st.items pid)) h.1
    · intro it' hit'
      exact h.2 it' (List.Sublist.subset (removeFirst_sublist st.items pid) hit')

theorem inv_updateQuantity (st : CartState) (pid : String) (q : ℤ) (h : CartInv st) :
    CartInv (Cart.updateQuantity st pid q).2 := by
  unfold Cart.updateQuantity
  rcases hf : Cart.findItem st.items pid with _ | it
  · exact h
  · dsimp only
    split_ifs with h1 h2
    · exact inv_removeItem st pid h
    · exact h
    · constructor
      · rw [setQuantityFirst_map_id]; exact h.1
      · intro x hx
        rcases mem_setQuantityFirst hx with hq | hmem
        · omega
        · exact h.2 x hmem

theorem inv_applyDiscount (st : CartState) (d : Discount) (now : ℤ) (h : CartInv st) :
    CartInv (Cart.applyDiscount st d now).2 := by
  unfold Cart.applyDiscount
  split_ifs <;> exact h

/-- C8: (1) every reachable cart state has at most one line item per distinct
product id and every line quantity at least 1; (2) whenever `addItem` returns
a line item, its quantity is at most the stock of the product snapshot passed
to (and checked by) that call; (3) whenever `updateQuantity` succeeds with a
quantity ≥ 1 on the line found for `pid`, that quantity is at most the stock
of the stored product snapshot checked at that moment. -/
theorem claim_C8 :
    (∀ st : CartState, Reachable st → CartInv st) ∧
    (∀ (st : CartState) (p : Product) (q now : ℤ) (it : CartItem),
      (Cart.addItem st p q now).1 = some it → it.quantity ≤ p.stock) ∧
    (∀ (st : CartState) (pid : String) (q : ℤ) (it : CartItem),
      1 ≤ q → Cart.findItem st.items pid = some it →
      (Cart.updateQuantity st pid q).1 = true → q ≤ it.product.stock) := by
  refine ⟨?_, ?_, ?_⟩
  · intro st hst
    induction hst with
    | init currency t f c => exact inv_new currency t f c
    | add st p q now hr ih => exact inv_addItem st p q now ih
    | update st pid q hr ih => exact inv_updateQuantity st pid q ih
    | remove st pid hr ih => exact inv_removeItem st pid ih
    | clearCart st hr ih => exact ⟨by simp [Cart.clear], by simp [Cart.clear]⟩
    | applyDisc st d now hr ih => exact inv_applyDiscount st d now ih
    | removeDisc st hr ih => exact ih
  · intro st p q now it h
    unfold Cart.addItem at h
    split_ifs at h with h1 h2 h3
    all_goals try simp at h
    rcases hf : Cart.findItem st.items p.id with _ | ex
    · rw [hf] at h
      simp only at h
      obtain rfl : ({ product := p, quantity := q, addedAt := now } : CartItem) = it :=
        Option.some.inj h
      exact not_lt.mp h2
    · rw [hf] at h
      dsimp only at h
      split_ifs at h with h4
      simp only [Option.some.injEq] at h
      rw [← h]
      exact not_lt.mp h4
  · intro st pid q it hq hfind hupd
    unfold Cart.updateQuantity at hupd
    rw [hfind] at hupd
    dsimp only at hupd
    split_ifs at hupd with h1 h2
    · omega
    · exact not_lt.mp h2

/-- C8 witness: the invariant after one `addItem` on a fresh cart, the stock
bound on the line returned by that call, and the stock bound checked by a
successful `updateQuantity`. -/
theorem claim_C8_witness :
    CartInv (Cart.addItem (Cart.new .EUR none none none) tshirt 2 0).2 ∧
    ({ product := tshirt, quantity := 2, addedAt := 0 } : CartItem).quantity ≤
      tshirt.stock ∧
    (3 : ℤ) ≤ oneShirtItem.product.stock :=
  ⟨claim_C8.1 _ (Reachable.add _ tshirt 2 0 (Reachable.init .EUR none none none)),
   claim_C8.2.1 (Cart.new .EUR none none none) tshirt 2 0 _ rfl,
   claim_C8.2.2 oneShirtCart "1" 3 oneShirtItem (by norm_num) rfl rfl⟩

end Ecom

namespace Ecom

namespace Shipping

structure EstimatedDays where
  min : ℕ
  max : ℕ
  deriving DecidableEq

/-- Model of `ShippingRate` from the shipping module. -/
structure ShippingRate where
  id : String
  name : String
  price : ℚ
  estimatedDays : EstimatedDays
  deriving DecidableEq

/-- Model of `ShippingZone` from the shipping module. -/
structure ShippingZone where
  id : String
  name : String
  countries : List String
  rates : List ShippingRate
  deriving DecidableEq

/-- Model of `ShippingCalculation` from the shipping module. -/
structure ShippingCalculation where
  available : Bool
  zoneName : String
  rates : List ShippingRate
  cheapestRate : Option ShippingRate
  fastestRate : Option ShippingRate
  freeShippingEligible : Bool
  amountForFreeShipping : ℚ
  deriving DecidableEq

/-- The `france` entry of `defaultShippingZones`. -/
def franceZone : ShippingZone :=
  { id := "france", name := "France métropolitaine", countries := ["FR"],
    rates :=
      [{ id := "standard-fr", name := "Livraison standard", price := 4.90,
         estimatedDays := { min := 3, max := 5 } },
       { id := "express-fr", name := "Livraison express", price := 9.90,
         estimatedDays := { min := 1, max := 2 } },
       { id := "relay-fr", name := "Point relais", price := 3.90,
         estimatedDays := { min := 3, max := 5 } }] }

/-- The `europe` entry of `defaultShippingZones`. -/
def europeZone : ShippingZone :=
  { id := "europe", name := "Europe",
    countries := ["DE", "BE", "ES", "IT", "NL", "PT", "AT", "LU", "CH", "GB"],
    rates :=
      [{ id := "standard-eu", name := "Livraison standard", price := 9.90,
         estimatedDays := { min := 5, max := 10 } },
       { id := "express-eu", name := "Livraison express", price := 19.90,
         estimatedDays := { min := 2, max := 4 } }] }

/-- The `world` wildcard entry of `defaultShippingZones`. -/
def worldZone : ShippingZone :=
  { id := "world", name := "International", countries := ["*"],
    rates :=
      [{ id := "standard-world", name := "Livraison internationale", price := 19.90,
         estimatedDays := { min := 10, max := 20 } },
       { id := "express-world", name := "Express international", price := 39.90,
         estimatedDays := { min := 5, max := 10 } }] }

def defaultShippingZones : List ShippingZone := [franceZone, europeZone, worldZone]

/-- The conversion `countryCode.toUpperCase()`, character by character. -/
def toUpperString (s : String) : String :=
  String.mk (s.data.map Char.toUpper)

/-- Model of `findShippingZone(countryCode, zones)`. -/
def findShippingZone (countryCode : String) (zones : List ShippingZone) :
    Option ShippingZone :=
  let code := toUpperString countryCode
  match zones.find? (fun z => z.countries.contains code) with
  | some z => some z
  | none => zones.find? (fun z => z.countries.contains "*")

/-- Out-of-range access fallback for `rateAt`. -/
def defaultRate : ShippingRate :=
  { id := "", name := "", price := 0, estimatedDays := { min := 0, max := 0 } }

/-- Indexing `rates[i]` over the fixed array inspected by the reduce. -/
def rateAt (rs : List ShippingRate) (i : ℕ) : ShippingRate :=
  rs.getD i defaultRate

/-- The `rates.reduce((minIdx, rate, idx, arr) => rate.price < arr[minIdx].price
? idx : minIdx, 0)` computation of the index of the cheapest rate. -/
def cheapestIndex (rs : List ShippingRate) : ℕ :=
  (List.range rs.length).foldl
    (fun minIdx idx =>
      if (rateAt rs idx).price < (rateAt rs minIdx).price then idx else minIdx) 0

/-- Model of `calculateShipping(countryCode, orderAmount, freeShippingThreshold, zones)`. -/
def calculateShipping (countryCode : String) (orderAmount freeShippingThreshold : ℚ)
    (zones : List ShippingZone) : ShippingCalculation :=
  match findShippingZone countryCode zones with
  | none =>
    { available := false, zoneName := "Inconnu", rates := [], cheapestRate := none,
      fastestRate := none, freeShippingEligible := false, amountForFreeShipping := 0 }
  | some zone =>
    let freeShippingEligible : Bool := decide (freeShippingThreshold ≤ orderAmount)
    let rates :=
      if freeShippingEligible then
        zone.rates.set (cheapestIndex zone.rates)
          { rateAt zone.rates (cheapestIndex zone.rates) with price := 0 }
      else zone.rates
    { available := true
      zoneName := zone.name
      rates := rates
      cheapestRate := (rates.mergeSort (fun a b => decide (a.price ≤ b.price))).head?
      fastestRate :=
        (rates.mergeSort (fun a b => decide (a.estimatedDays.min ≤ b.estimatedDays.min))).head?
      freeShippingEligible := freeShippingEligible
      amountForFreeShipping :=
        if freeShippingEligible then 0
        else Cart.round (freeShippingThreshold - orderAmount) }

/-- Prefix version of `cheapestIndex`: the reduce run over the first `n`
indices only. -/
def cheapAux (rs : List ShippingRate) (n : ℕ) : ℕ :=
  (List.range n).foldl
    (fun minIdx idx =>
      if (rateAt rs idx).price < (rateAt rs minIdx).price then idx else minIdx) 0

theorem cheapestIndex_eq_aux (rs : List ShippingRate) :
    cheapestIndex rs = cheapAux rs rs.length := rfl

theorem cheapAux_zero (rs : List ShippingRate) : cheapAux rs 0 = 0 := rfl

theorem cheapAux_succ (rs : List ShippingRate) (n : ℕ) :
    cheapAux rs (n + 1) =
      if (rateAt rs n).price < (rateAt rs (cheapAux rs n)).price then n
      else cheapAux rs n := by
  unfold cheapAux
  rw [List.range_succ, List.foldl_append]
  rfl

theorem cheapAux_lt (rs : List ShippingRate) (n : ℕ) (hn : 0 < n) :
    cheapAux rs n < n := by
  induction n with
  | zero => omega
  | succ m ih =>
      rw [cheapAux_succ]
      split_ifs with h
      · omega
      · rcases Nat.eq_zero_or_pos m with h0 | hp
        · subst h0
          rw [cheapAux_zero]
          omega
        · exact Nat.lt_succ_of_lt (ih hp)

theorem cheapAux_min (rs : List ShippingRate) (n j : ℕ) (hj : j < n) :
    (rateAt rs (cheapAux rs n)).price ≤ (rateAt rs j).price := by
  induction n with
  | zero => omega
  | succ m ih =>
      rw [cheapAux_succ]
      split_ifs with h
      · rcases Nat.lt_succ_iff_lt_or_eq.mp hj with hj1 | hj1
        · exact le_trans (le_of_lt h) (ih hj1)
        · rw [hj1]
      · rcases Nat.lt_succ_iff_lt_or_eq.mp hj with hj1 | hj1
        · exact ih hj1
        · rw [hj1]; exact not_lt.mp h

theorem cheapAux_first (rs : List ShippingRate) (n j : ℕ)
    (hj : j < cheapAux rs n) :
    (rateAt rs (cheapAux rs n)).price < (rateAt rs j).price := by
  induction n with
  | zero => rw [cheapAux_zero] at hj; omega
  | succ m ih =>
      rw [cheapAux_succ] at hj ⊢
      split_ifs at hj ⊢ with h
      · exact lt_of_lt_of_le h (cheapAux_min rs m j hj)
      · exact ih hj

theorem rateAt_set_self (rs : List ShippingRate) (a : ShippingRate) (i : ℕ)
    (h : i < rs.length) : rateAt (rs.set i a) i = a := by
  simp [rateAt, List.getD_eq_getElem?_getD, List.getElem?_set_eq_of_lt a h]

theorem rateAt_set_ne (rs : List ShippingRate) (a : ShippingRate) (i j : ℕ)
    (h : i ≠ j) : rateAt (rs.set i a) j = rateAt rs j := by
  simp [rateAt, List.getD_eq_getElem?_getD, List.getElem?_set_ne h]

end Shipping

/-- C9: for every country matched to a shipping zone with at least one rate and
every order amount at or above the free-shipping threshold, the rate list
returned by `calculateShipping` has the same length as the zone's, the entry at
the cheapest index is the original rate with its price zeroed, every other
entry is unchanged, and the cheapest index attains the minimum price with ties
broken by first occurrence (every strictly earlier index has a strictly larger
price). -/
theorem claim_C9 (countryCode : String) (orderAmount freeShippingThreshold : ℚ)
    (zones : List Shipping.ShippingZone) (zone : Shipping.ShippingZone)
    (hzone : Shipping.findShippingZone countryCode zones = some zone)
    (hne : zone.rates ≠ [])
    (hfree : freeShippingThreshold ≤ orderAmount) :
    Shipping.cheapestIndex zone.rates < zone.rates.length ∧
    (Shipping.calculateShipping countryCode orderAmount freeShippingThreshold
        zones).rates.length = zone.rates.length ∧
    Shipping.rateAt
        (Shipping.calculateShipping countryCode orderAmount freeShippingThreshold
          zones).rates (Shipping.cheapestIndex zone.rates) =
      { Shipping.rateAt zone.rates (Shipping.cheapestIndex zone.rates) with
          price := 0 } ∧
    (∀ j, j < zone.rates.length → j ≠ Shipping.cheapestIndex zone.rates →
      Shipping.rateAt
          (Shipping.calculateShipping countryCode orderAmount freeShippingThreshold
            zones).rates j = Shipping.rateAt zone.rates j) ∧
    (∀ j, j < zone.rates.length →
      (Shipping.rateAt zone.rates (Shipping.cheapestIndex zone.rates)).price ≤
        (Shipping.rateAt zone.rates j).price) ∧
    (∀ j, j < Shipping.cheapestIndex zone.rates →
      (Shipping.rateAt zone.rates (Shipping.cheapestIndex zone.rates)).price <
        (Shipping.rateAt zone.rates j).price) := by
  have hlen : 0 < zone.rates.length := List.length_pos.mpr hne
  have hidx : Shipping.cheapestIndex zone.rates < zone.rates.length := by
    rw [Shipping.cheapestIndex_eq_aux]
    exact Shipping.cheapAux_lt zone.rates zone.rates.length hlen
  have hrates :
      (Shipping.calculateShipping countryCode orderAmount freeShippingThreshold
        zones).rates =
      zone.rates.set (Shipping.cheapestIndex zone.rates)
        { Shipping.rateAt zone.rates (Shipping.cheapestIndex zone.rates) with
            price := 0 } := by
    unfold Shipping.calculateShipping
    rw [hzone]
    simp only [decide_eq_true hfree, if_true]
  refine ⟨hidx, ?_, ?_, ?_, ?_, ?_⟩
  · rw [hrates, List.length_set]
  · rw [hrates]
    exact Shipping.rateAt_set_self zone.rates _ _ hidx
  · intro j hj hne2
    rw [hrates]
    exact Shipping.rateAt_set_ne zone.rates _ _ j (fun he => hne2 he.symm)
  · intro j hj
    rw [Shipping.cheapestIndex_eq_aux]
    exact Shipping.cheapAux_min zone.rates zone.rates.length j hj
  · intro j hj
    rw [Shipping.cheapestIndex_eq_aux] at hj ⊢
    exact Shipping.cheapAux_first zone.rates zone.rates.length j hj

/-- C9 witness: France zone, order amount 60 over threshold 50 — the result
keeps all three rates, the entry at the cheapest index is the original rate
zeroed, and that index attains the minimum price. -/
theorem claim_C9_witness :
    Shipping.cheapestIndex Shipping.franceZone.rates <
      Shipping.franceZone.rates.length ∧
    (Shipping.calculateShipping "FR" 60 50
        Shipping.defaultShippingZones).rates.length =
      Shipping.franceZone.rates.length ∧
    Shipping.rateAt
        (Shipping.calculateShipping "FR" 60 50 Shipping.defaultShippingZones).rates
        (Shipping.cheapestIndex Shipping.franceZone.rates) =
      { Shipping.rateAt Shipping.franceZone.rates
          (Shipping.cheapestIndex Shipping.franceZone.rates) with price := 0 } ∧
    (Shipping.rateAt Shipping.franceZone.rates
        (Shipping.cheapestIndex Shipping.franceZone.rates)).price ≤
      (Shipping.rateAt Shipping.franceZone.rates 0).price :=
  have h := claim_C9 "FR" 60 50 Shipping.defaultShippingZones Shipping.franceZone rfl
    (by simp [Shipping.franceZone]) (by norm_num)
  ⟨h.1, h.2.1, h.2.2.1, h.2.2.2.2.1 0 (by simp [Shipping.franceZone])⟩

end Ecom

namespace Ecom

/-- Empty cart whose configured flat shipping cost is 0. -/
def zeroShippingCart : CartState :=
  { items := [], discount := none
    config := { currency := .EUR, taxRate := 20, freeShippingThreshold := 50,
                shippingCost := 0 } }

/-- C10 fails as stated: with a configured flat shipping cost of 0 (and a
positive threshold), the empty cart's shipping still equals the flat cost and
the tax is the rounded tax on it, but the total is 0, not strictly positive. -/
theorem claim_C10_counterexample :
    0 < zeroShippingCart.config.freeShippingThreshold ∧
    (Cart.getTotals zeroShippingCart).subtotal = 0 ∧
    (Cart.getTotals zeroShippingCart).discountAmount = 0 ∧
    (Cart.getTotals zeroShippingCart).shipping =
      zeroShippingCart.config.shippingCost ∧
    (Cart.getTotals zeroShippingCart).total = 0 ∧
    ¬ 0 < (Cart.getTotals zeroShippingCart).total := by
  refine ⟨by norm_num [zeroShippingCart], ?_, ?_, ?_, ?_, ?_⟩ <;>
    norm_num [Cart.getTotals, Cart.calculateSubtotal, Cart.calculateDiscountAmount,
      Cart.calculateShipping, Cart.calculateTax, Cart.getItemCount, Cart.round,
      Cart.hasFreeShippingDiscount, zeroShippingCart]

/-- C10 (amended): for every cart with no line items, no active discount and a
strictly positive free-shipping threshold, `getTotals` returns subtotal 0,
discount 0, shipping equal to the configured flat cost, tax equal to the
rounded tax on that flat cost, and total equal to the rounded sum of the two;
when moreover the tax rate is non-negative and the flat cost is at least half
a cent (in particular any cost of one cent or more), the total is strictly
positive — an empty cart is still charged shipping plus tax. -/
theorem claim_C10_amended (st : CartState)
    (hitems : st.items = []) (hdisc : st.discount = none)
    (hthr : 0 < st.config.freeShippingThreshold) :
    (Cart.getTotals st).subtotal = 0 ∧
    (Cart.getTotals st).discountAmount = 0 ∧
    (Cart.getTotals st).shipping = st.config.shippingCost ∧
    (Cart.getTotals st).taxAmount =
      Cart.round (st.config.shippingCost * (st.config.taxRate / 100)) ∧
    (Cart.getTotals st).total =
      Cart.round (st.config.shippingCost + (Cart.getTotals st).taxAmount) ∧
    (0 ≤ st.config.taxRate → 1/200 ≤ st.config.shippingCost →
      0 < (Cart.getTotals st).total) := by
  obtain ⟨items, disc, cfg⟩ := st
  dsimp only at hitems hdisc hthr ⊢
  subst hitems
  subst hdisc
  have hnotle : ¬ cfg.freeShippingThreshold ≤ 0 := not_le.mpr hthr
  simp only [Cart.getTotals, Cart.calculateSubtotal, Cart.calculateDiscountAmount,
    Cart.calculateShipping, Cart.calculateTax, Cart.getItemCount,
    Cart.hasFreeShippingDiscount, List.foldl_nil, sub_zero, zero_add,
    Bool.false_eq_true, if_false, hnotle, zero_sub, neg_zero]
  refine ⟨by norm_num [Cart.round], trivial, trivial, trivial, trivial, ?_⟩
  intro htax hcost
  have h1 : 0 ≤ Cart.round (cfg.shippingCost * (cfg.taxRate / 100)) :=
    Cart.round_nonneg
      (mul_nonneg (le_trans (by norm_num) hcost) (div_nonneg htax (by norm_num)))
  have h2 : 1/200 ≤ cfg.shippingCost + Cart.round (cfg.shippingCost * (cfg.taxRate / 100)) := by
    linarith
  calc (0:ℚ) < 1/100 := by norm_num
    _ ≤ _ := Cart.round_ge_cent h2

/-- C10 witness: the amended claim at the default configuration — the empty
default cart totals round(4.90 + round(0.98)) = 5.88 > 0. -/
theorem claim_C10_witness :
    0 < (Cart.getTotals (Cart.new .EUR none none none)).total :=
  (claim_C10_amended (Cart.new .EUR none none none) rfl rfl
      (by norm_num [Cart.new])).2.2.2.2.2
    (by norm_num [Cart.new]) (by norm_num [Cart.new])

end Ecom
